import Mathlib

/-!
Verification of the `better-auth-siws` plugin (`src/index.ts`): a shallow
embedding of the canonical SIWS message codec (`buildSiwsMessage`, nonce
extraction), the challenge issuer (`start`) and the verifier (`verify`),
together with theorems about the nonce lifecycle, the message format, and
the verifier's state machine.

Modelling conventions:
* Strings are Lean `String`s; all string scanning is done with structural
  helpers over `String.data` so that concrete runs evaluate in the kernel.
* JavaScript truthiness of a string (`if (x)`, `!x`) is modelled as the
  string being nonempty; `??` (nullish coalescing) as `Option.getD`.
* `String.prototype.trim` is modelled for the ASCII whitespace characters
  (space, tab, carriage return, line feed); the additional Unicode
  whitespace JS trims never occurs in any input considered here.
* Time is an integer millisecond timestamp; `new Date(e) <= new Date()`
  becomes `e ≤ now`.
* The Ed25519 check `ed25519.verifyAsync(sig, msg, addr)` is an external
  cryptographic primitive; the verifier is parameterised by an oracle
  `sigOk : String → String → String → Bool` so that theorems quantify over
  every possible behaviour of the signature check.
* The better-auth `internalAdapter` is an external collaborator. Its
  verification-value store is modelled from the spec's collaborator
  contract: records keyed by `identifier` (`create` upserts, `find`
  returns the record for a key, `delete` removes it); the identity store
  (`findAccount`, `createOAuthUser`, `findUserById`, `createSession`)
  is modelled as explicit lists with deterministic fresh ids.
-/

namespace Siws

/- ------------------------- string helpers ------------------------- -/

/-- Split a character list at every `'\n'`, accumulating the current line.
Models JavaScript `message.split("\n")` (separator `"\n"`). -/
def splitLinesAux : List Char → List Char → List (List Char)
  | [], acc => [acc.reverse]
  | c :: cs, acc =>
    if c = '\n' then acc.reverse :: splitLinesAux cs []
    else splitLinesAux cs (c :: acc)

/-- JavaScript `s.split("\n")`. -/
def splitNl (s : String) : List String :=
  (splitLinesAux s.data []).map String.mk

/-- Boolean prefix test on character lists. -/
def isPrefixChars : List Char → List Char → Bool
  | [], _ => true
  | _ :: _, [] => false
  | a :: as, b :: bs => a == b && isPrefixChars as bs

/-- JavaScript `s.startsWith(p)`. -/
def strStartsWith (s p : String) : Bool :=
  isPrefixChars p.data s.data

/-- ASCII whitespace, the fragment of JS `trim`'s whitespace class used here. -/
def isWs (c : Char) : Bool :=
  c = ' ' || c = '\t' || c = '\r' || c = '\n'

/-- JavaScript `s.trim()` (ASCII whitespace fragment). -/
def trimStr (s : String) : String :=
  String.mk (((s.data.dropWhile isWs).reverse.dropWhile isWs).reverse)

/-- JavaScript `s.slice(n)` (drop the first `n` characters). -/
def strDrop (s : String) (n : Nat) : String :=
  String.mk (s.data.drop n)

/-- JavaScript `array.join(sep)`. -/
def joinSep (sep : String) : List String → String
  | [] => ""
  | [l] => l
  | l :: ls => l ++ sep ++ joinSep sep ls

/-- JavaScript `lines.join("\n")`. -/
def joinNl (ls : List String) : String :=
  joinSep "\n" ls

/- --------------------------- message codec --------------------------- -/

/-- The input record of `buildSiwsMessage` (src/index.ts:18-27). Optional
TypeScript fields become `Option`s. -/
structure SiwsFields where
  domain : String
  address : String
  uri : String
  statement : Option String
  nonce : String
  issuedAt : String
  expirationTime : Option String
  resources : Option (List String)
deriving DecidableEq, Repr

/-- The statement line: `i.statement ?? "Sign in with Solana to the app."`
(`??` only falls back on a missing field, hence `Option.getD`). -/
def statementLine (i : SiwsFields) : String :=
  i.statement.getD "Sign in with Solana to the app."

/-- The entries conditionally pushed after the fixed lines
(src/index.ts:39-40): `if (i.expirationTime)` is string truthiness
(present and nonempty); `if (i.resources?.length)` is truthiness of the
length (present and nonempty list). The resources entry is a single
pushed string containing embedded newlines. -/
def optionalEntries (i : SiwsFields) : List String :=
  (match i.expirationTime with
   | some e => if e = "" then [] else ["Expiration Time: " ++ e]
   | none => []) ++
  (match i.resources with
   | some rs =>
       if rs.length = 0 then []
       else ["Resources:\n- " ++ joinSep "\n- " rs]
   | none => [])

/-- The function `buildSiwsMessage` (src/index.ts:18-42): the canonical SIWS message,
the newline-join of the fixed lines followed by the conditional entries. -/
def buildSiwsMessage (i : SiwsFields) : String :=
  joinNl ([
    i.domain ++ " wants you to sign in with your Solana account:",
    i.address,
    "",
    statementLine i,
    "",
    "URI: " ++ i.uri,
    "Version: 1",
    "Nonce: " ++ i.nonce,
    "Issued At: " ++ i.issuedAt] ++ optionalEntries i)

/-- Step 1 of `verify` (src/index.ts:87-88): find the first line of the
message starting with the literal `"Nonce: "` and return the remainder,
trimmed. `none` when no such line exists. -/
def extractNonce (message : String) : Option String :=
  match (splitNl message).find? (fun l => strStartsWith l "Nonce: ") with
  | none => none
  | some l => some (trimStr (strDrop l ("Nonce: ".length)))

/- ------------------------------- state ------------------------------- -/

/-- Plugin options (src/index.ts:10-14). -/
structure SiwsOptions where
  domain : String
  statement : Option String := none
  nonceTtlSeconds : Option Nat := none
deriving DecidableEq, Repr

/-- A stored verification value (`{value, expiresAt}`), the Challenge
Record. `expiresAt` is a millisecond timestamp. -/
structure ChallengeRecord where
  value : String
  expiresAt : Int
deriving DecidableEq, Repr

/-- The verification-value store. Modelled from the spec's collaborator
contract (§3, §6): records are keyed by `identifier`, so at most the most
recent record per key is live. -/
abbrev ChallengeStore := List (String × ChallengeRecord)

/-- Adapter `findVerificationValue(identifier)`: the record stored under a key. -/
def storeFind (st : ChallengeStore) (k : String) : Option ChallengeRecord :=
  (st.find? (fun e => e.1 = k)).map (fun e => e.2)

/-- Adapter `deleteVerificationValue(identifier)`: remove the record under a key. -/
def storeDelete (st : ChallengeStore) (k : String) : ChallengeStore :=
  st.filter (fun e => e.1 ≠ k)

/-- Adapter `createVerificationValue` of a record. Modelled from
the spec: the store is keyed by `identifier`, so creating under an existing
key replaces the previous record (upsert in effect). -/
def storeUpsert (st : ChallengeStore) (k : String) (v : ChallengeRecord) :
    ChallengeStore :=
  (k, v) :: storeDelete st k

/-- Number of records held under a key. -/
def keyCount (st : ChallengeStore) (k : String) : Nat :=
  (st.filter (fun e => e.1 = k)).length

/-- An account row of the external identity store; `accountId` is the
deterministic id `"siws:" + address`, `userId` the linked user. -/
structure Account where
  providerId : String
  accountId : String
  userId : Nat
deriving DecidableEq, Repr

/-- The external identity & session store, modelled from the spec's
collaborator contract (§6) with deterministic fresh ids: user ids and
session ids are drawn from counters. -/
structure IdentityState where
  accounts : List Account
  users : List Nat
  sessions : List (Nat × Nat)
  nextUserSeed : Nat
  nextSessionSeed : Nat
deriving DecidableEq, Repr

/-- Adapter `findAccount(accountId)`. -/
def findAccount (st : IdentityState) (k : String) : Option Account :=
  st.accounts.find? (fun a => a.accountId = k)

/-- The externally persisted state a `start`/`verify` pair touches. -/
structure ServerState where
  challenges : ChallengeStore
  identity : IdentityState
deriving DecidableEq, Repr

/-- The function `buildAccountId` (src/index.ts:141-143). -/
def buildAccountId (address : String) : String :=
  "siws:" ++ address

/- ----------------------------- endpoints ----------------------------- -/

/-- The `/siws/start` handler (src/index.ts:51-74) after body validation.
The random nonce and the current time are inputs (the randomness source and
clock are external); returns the response `{nonce, domain, uri}` and the
updated state. `uri` is the configured `baseURL`. -/
def start (opts : SiwsOptions) (baseURL : String) (nonce : String)
    (now : Int) (s : ServerState) (address : String) :
    (String × String × String) × ServerState :=
  let expiresAt : Int := now + (opts.nonceTtlSeconds.getD 300 : Nat) * 1000
  ((nonce, opts.domain, baseURL),
   { s with
      challenges :=
        storeUpsert s.challenges ("siws:" ++ address)
          { value := nonce, expiresAt := expiresAt } })

/-- The outcome of the `/siws/verify` handler: the three 400 responses
("Nonce missing", "Nonce invalid or expired", "Domain mismatch"), the 401
response ("Invalid signature"), or the 200 response with the resolved user
id and the created session id. -/
inductive VerifyResult where
  | nonceMissing
  | nonceInvalidOrExpired
  | domainMismatch
  | invalidSignature
  | ok (userId : Nat) (sessionId : Nat)
deriving DecidableEq, Repr

/-- Steps 6–7 of `verify` (src/index.ts:114-134): find the account under
`buildAccountId address`; absent → create a fresh user (`createOAuthUser`)
and link a new account; present → resolve the existing user
(`findUserById(existingAccount.userId)`, whose id is the account's user id
by the store contract). Then create a session for the resolved user.
Returns `((userId, sessionId), updated identity store)`. -/
def upsertUserAndSession (identity : IdentityState) (address : String) :
    (Nat × Nat) × IdentityState :=
  match findAccount identity (buildAccountId address) with
  | none =>
    ((identity.nextUserSeed, identity.nextSessionSeed),
     { accounts :=
         { providerId := "siws", accountId := buildAccountId address,
           userId := identity.nextUserSeed } :: identity.accounts,
       users := identity.users ++ [identity.nextUserSeed],
       sessions := identity.sessions ++ [(identity.nextSessionSeed, identity.nextUserSeed)],
       nextUserSeed := identity.nextUserSeed + 1,
       nextSessionSeed := identity.nextSessionSeed + 1 })
  | some acct =>
    ((acct.userId, identity.nextSessionSeed),
     { identity with
        sessions := identity.sessions ++ [(identity.nextSessionSeed, acct.userId)],
        nextSessionSeed := identity.nextSessionSeed + 1 })

/-- The `/siws/verify` handler (src/index.ts:77-137) after body validation.

1. extract the nonce from the message (`!nonceFromMsg` also rejects an
   all-whitespace remainder, hence the `= ""` test);
2. look up the Challenge Record for `"siws:" + address`; missing or
   `expiresAt ≤ now` → "Nonce invalid or expired";
3. delete the record (single-use) — unconditionally from here on;
4. domain binding: the message must start with
   `domain + " wants you to sign in"`;
5. signature check via the external oracle `sigOk signature message address`;
6.–7. `upsertUserAndSession`.

The extracted nonce value is never consulted after step 1. -/
def verify (opts : SiwsOptions) (sigOk : String → String → String → Bool)
    (now : Int) (s : ServerState)
    (address message signature : String) : VerifyResult × ServerState :=
  match extractNonce message with
  | none => (.nonceMissing, s)
  | some nonceFromMsg =>
    if nonceFromMsg = "" then (.nonceMissing, s)
    else
      match storeFind s.challenges ("siws:" ++ address) with
      | none => (.nonceInvalidOrExpired, s)
      | some v =>
        if v.expiresAt ≤ now then (.nonceInvalidOrExpired, s)
        else
          if strStartsWith message (opts.domain ++ " wants you to sign in") = false then
            (.domainMismatch,
             { s with challenges := storeDelete s.challenges ("siws:" ++ address) })
          else if sigOk signature message address = false then
            (.invalidSignature,
             { s with challenges := storeDelete s.challenges ("siws:" ++ address) })
          else
            (.ok (upsertUserAndSession s.identity address).1.1
                 (upsertUserAndSession s.identity address).1.2,
             { challenges := storeDelete s.challenges ("siws:" ++ address),
               identity := (upsertUserAndSession s.identity address).2 })

/- --------------------- predicates and spec-side views --------------------- -/

/-- A string containing no line break. -/
def noNlStr (s : String) : Prop :=
  ∀ c ∈ s.data, c ≠ '\n'

instance noNlStr_decidable (s : String) : Decidable (noNlStr s) :=
  inferInstanceAs (Decidable (∀ c ∈ s.data, c ≠ '\n'))

/-- A well-formed field set for the round-trip property: every field that
is rendered before the nonce line is a single line that does not itself
start with the literal `"Nonce: "`, and the nonce is a single-line string
unchanged by trimming. -/
structure GoodFields (i : SiwsFields) : Prop where
  domainNoNl : noNlStr i.domain
  addressNoNl : noNlStr i.address
  statementNoNl : noNlStr (statementLine i)
  uriNoNl : noNlStr i.uri
  nonceNoNl : noNlStr i.nonce
  nonceTrimmed : trimStr i.nonce = i.nonce
  greetingNotNonce :
    strStartsWith (i.domain ++ " wants you to sign in with your Solana account:")
      "Nonce: " = false
  addressNotNonce : strStartsWith i.address "Nonce: " = false
  statementNotNonce : strStartsWith (statementLine i) "Nonce: " = false

/-- The line list of the canonical message as the spec describes it
(§4.1): fixed lines, then `Expiration Time:` when pushed, then the
`Resources:` block as individual dash-prefixed lines. -/
def messageLines (i : SiwsFields) : List String :=
  [i.domain ++ " wants you to sign in with your Solana account:",
   i.address,
   "",
   statementLine i,
   "",
   "URI: " ++ i.uri,
   "Version: 1",
   "Nonce: " ++ i.nonce,
   "Issued At: " ++ i.issuedAt] ++
  (match i.expirationTime with
   | some e => if e = "" then [] else ["Expiration Time: " ++ e]
   | none => []) ++
  (match i.resources with
   | some rs =>
       if rs.length = 0 then []
       else "Resources:" :: rs.map (fun r => "- " ++ r)
   | none => [])

/- ----------------------- concrete witness inputs ----------------------- -/

/-- A base58 Solana address used in concrete runs. -/
def addrA : String := "GjJyeC1r2RgkuoCWMyPYkCWSGSGLcz266EaMkMqP7VmE"

/-- A second, different address used in concrete runs. -/
def addrB : String := "4Nd1mYQJKzW8VrR8boJGDmYkV14vwfVcWbPZvG5j8HQs"

/-- The configured options of the concrete runs. -/
def opts0 : SiwsOptions := { domain := "app.example.com" }

/-- An empty identity store. -/
def identity0 : IdentityState :=
  { accounts := [], users := [], sessions := [],
    nextUserSeed := 0, nextSessionSeed := 0 }

/-- A server state holding one live challenge for `addrA` (nonce
`"n1abc"`, expiring at time 1000). -/
def s0A : ServerState :=
  { challenges := [("siws:" ++ addrA, { value := "n1abc", expiresAt := 1000 })],
    identity := identity0 }

/-- Field set matching the challenge of `s0A`. -/
def fieldsA : SiwsFields :=
  { domain := "app.example.com", address := addrA,
    uri := "http://localhost:3000/api/auth", statement := none,
    nonce := "n1abc", issuedAt := "2024-01-01T00:00:00Z",
    expirationTime := none, resources := none }

/-- A signature oracle that accepts everything (a run in which the
submitted signature is cryptographically valid). -/
def sigAccept : String → String → String → Bool := fun _ _ _ => true

/-- A signature oracle that rejects everything. -/
def sigReject : String → String → String → Bool := fun _ _ _ => false

/-- A field set whose statement injects a line starting with
`"Nonce: "` before the genuine nonce line. -/
def fieldsInject : SiwsFields :=
  { fieldsA with statement := some "Nonce: evil" }

/-- A field set whose `"Nonce: "` line carries a nonce different from the
`"n1abc"` stored in `s0A`. -/
def fieldsOtherNonce : SiwsFields :=
  { fieldsA with nonce := "attacker-chosen" }

/-- A field set naming `addrB` in the address line (other fields as in
`fieldsA`). -/
def fieldsWrongAddress : SiwsFields :=
  { fieldsA with address := addrB }

/-- A field set built for a different deployment domain than `opts0`. -/
def fieldsEvilDomain : SiwsFields :=
  { fieldsA with domain := "evil.example.com" }

/-- Field set for a second authentication round with a fresh nonce. -/
def fieldsA2 : SiwsFields :=
  { fieldsA with nonce := "n2xyz" }

/-- The identity store after the first successful verification of `addrA`
starting from `identity0`. -/
def identity1 : IdentityState :=
  { accounts := [{ providerId := "siws", accountId := "siws:" ++ addrA, userId := 0 }],
    users := [0], sessions := [(0, 0)],
    nextUserSeed := 1, nextSessionSeed := 1 }

/-- The server state after the first successful verification on `s0A`. -/
def state1 : ServerState :=
  { challenges := [], identity := identity1 }

/-- The server state after a second full round (new challenge, second
successful verification) from `state1`. -/
def state2 : ServerState :=
  { challenges := [],
    identity := { identity1 with sessions := [(0, 0), (1, 0)], nextSessionSeed := 2 } }

/- --------------------------- store lemmas --------------------------- -/

theorem storeFind_delete_self (st : ChallengeStore) (k : String) :
    storeFind (storeDelete st k) k = none := by
  unfold storeFind storeDelete
  have h : (st.filter (fun e => decide (e.1 ≠ k))).find?
      (fun e => decide (e.1 = k)) = none := by
    rw [List.find?_eq_none]
    intro e he
    rcases List.mem_filter.mp he with ⟨-, hne⟩
    simpa using hne
  rw [h]
  rfl

theorem storeFind_upsert_self (st : ChallengeStore) (k : String)
    (v : ChallengeRecord) : storeFind (storeUpsert st k v) k = some v := by
  unfold storeFind storeUpsert
  rw [List.find?_cons_of_pos _ (by simp)]
  rfl

theorem keyCount_upsert_self (st : ChallengeStore) (k : String)
    (v : ChallengeRecord) : keyCount (storeUpsert st k v) k = 1 := by
  unfold keyCount storeUpsert storeDelete
  rw [List.filter_cons_of_pos (by simp), List.filter_filter]
  have : ∀ e : String × ChallengeRecord,
      (decide (e.1 = k) && decide (e.1 ≠ k)) = false := by
    intro e
    by_cases h : e.1 = k <;> simp [h]
  rw [List.filter_congr (fun e _ => this e)]
  simp

/- ----------------------- verify inversion lemmas ----------------------- -/

/-- The identity store after `upsertUserAndSession` holds an account under
`buildAccountId address` whose user id is the returned user id. -/
theorem upsertUserAndSession_resolves (identity : IdentityState) (address : String) :
    ∃ a, findAccount (upsertUserAndSession identity address).2 (buildAccountId address)
          = some a ∧
        a.userId = (upsertUserAndSession identity address).1.1 := by
  unfold upsertUserAndSession
  split
  · refine ⟨{ providerId := "siws", accountId := buildAccountId address,
              userId := identity.nextUserSeed }, ?_, rfl⟩
    unfold findAccount
    rw [List.find?_cons_of_pos _ (by simp)]
  · next a hA => exact ⟨a, hA, rfl⟩

/-- A successful `verify` passed nonce extraction, found a live (unexpired)
Challenge Record, deleted it, and resolved an account for
`buildAccountId addr` in the final identity state whose user is the
returned user id. -/
theorem verify_ok_inv (opts : SiwsOptions) (sigOk : String → String → String → Bool)
    (now : Int) (s : ServerState) (addr msg sig : String)
    (u sid : Nat) (s' : ServerState)
    (h : verify opts sigOk now s addr msg sig = (.ok u sid, s')) :
    (∃ n, extractNonce msg = some n ∧ n ≠ "") ∧
    (∃ v, storeFind s.challenges ("siws:" ++ addr) = some v ∧ ¬ v.expiresAt ≤ now) ∧
    s'.challenges = storeDelete s.challenges ("siws:" ++ addr) ∧
    (∃ a, findAccount s'.identity (buildAccountId addr) = some a ∧ a.userId = u) := by
  unfold verify at h
  split at h
  · exact absurd (congrArg (fun p => p.1) h) (by simp)
  next n hn =>
    split at h
    · exact absurd (congrArg (fun p => p.1) h) (by simp)
    next hne =>
      split at h
      · exact absurd (congrArg (fun p => p.1) h) (by simp)
      next v hv =>
        split at h
        · exact absurd (congrArg (fun p => p.1) h) (by simp)
        next hexp =>
          split at h
          · exact absurd (congrArg (fun p => p.1) h) (by simp)
          next hdom =>
            split at h
            · exact absurd (congrArg (fun p => p.1) h) (by simp)
            next hsig =>
              cases h
              exact ⟨⟨n, hn, hne⟩, ⟨v, hv, hexp⟩, rfl,
                upsertUserAndSession_resolves s.identity addr⟩

/- ------------------------ string and line lemmas ------------------------ -/

theorem isPrefixChars_append_left (l m : List Char) :
    isPrefixChars l (l ++ m) = true := by
  induction l with
  | nil => rfl
  | cons c cs ih => simp [isPrefixChars, ih]

theorem strStartsWith_append_right (p t : String) :
    strStartsWith (p ++ t) p = true := by
  unfold strStartsWith
  rw [String.data_append]
  exact isPrefixChars_append_left _ _

theorem isPrefixChars_cons_ne (a b : Char) (as bs : List Char) (h : a ≠ b) :
    isPrefixChars (a :: as) (b :: bs) = false := by
  simp [isPrefixChars]
  intro hab
  exact absurd hab h

theorem splitLinesAux_append_nl (xs ys acc : List Char) :
    splitLinesAux (xs ++ '\n' :: ys) acc
      = splitLinesAux xs acc ++ splitLinesAux ys [] := by
  induction xs generalizing acc with
  | nil => simp [splitLinesAux]
  | cons c cs ih =>
    by_cases hc : c = '\n'
    · subst hc
      simp [splitLinesAux, ih]
    · simp [splitLinesAux, hc, ih]

theorem splitLinesAux_no_nl (xs acc : List Char) (h : ∀ c ∈ xs, c ≠ '\n') :
    splitLinesAux xs acc = [acc.reverse ++ xs] := by
  induction xs generalizing acc with
  | nil => simp [splitLinesAux]
  | cons c cs ih =>
    have hc : c ≠ '\n' := h c (by simp)
    rw [splitLinesAux, if_neg hc, ih (c :: acc) (fun d hd => h d (by simp [hd]))]
    simp

theorem joinNl_cons (l : String) (t : List String) (ht : t ≠ []) :
    joinNl (l :: t) = l ++ "\n" ++ joinNl t := by
  cases t with
  | nil => exact absurd rfl ht
  | cons b bs => rfl

theorem splitNl_cons (l : String) (t : List String) (hl : noNlStr l)
    (ht : t ≠ []) :
    splitNl (joinNl (l :: t)) = l :: splitNl (joinNl t) := by
  rw [joinNl_cons l t ht]
  unfold splitNl
  rw [String.data_append, String.data_append, List.append_assoc]
  have hnl : ("\n" : String).data ++ (joinNl t).data
      = '\n' :: (joinNl t).data := rfl
  rw [hnl, splitLinesAux_append_nl, splitLinesAux_no_nl l.data [] hl]
  simp

theorem find?_append_of_forall_false {α : Type} (p : α → Bool)
    (l₁ l₂ : List α) (h : ∀ x ∈ l₁, p x = false) :
    (l₁ ++ l₂).find? p = l₂.find? p := by
  induction l₁ with
  | nil => rfl
  | cons a as ih =>
    rw [List.cons_append, List.find?_cons_of_neg _ (by simp [h a (by simp)])]
    exact ih (fun x hx => h x (by simp [hx]))

theorem joinNl_append (xs ys : List String) (hxs : xs ≠ []) (hys : ys ≠ []) :
    joinNl (xs ++ ys) = joinNl xs ++ "\n" ++ joinNl ys := by
  induction xs with
  | nil => exact absurd rfl hxs
  | cons a as ih =>
    cases as with
    | nil =>
      cases ys with
      | nil => exact absurd rfl hys
      | cons b bs => rfl
    | cons a2 as2 =>
      rw [List.cons_append,
        joinNl_cons a (a2 :: as2 ++ ys) (by simp),
        ih (by simp), joinNl_cons a (a2 :: as2) (by simp)]
      simp only [String.append_assoc]

theorem noNlStr_append (a b : String) (ha : noNlStr a) (hb : noNlStr b) :
    noNlStr (a ++ b) := by
  intro c hc
  rw [String.data_append] at hc
  rcases List.mem_append.mp hc with h | h
  · exact ha c h
  · exact hb c h

/- --------------------------- claim theorems --------------------------- -/

/-- C1: Single-use — after one `verify` call on a live Challenge Record
succeeds end-to-end, a second `verify` with the identical
`{address, message, signature}` inputs fails with `NonceInvalidOrExpired`
(the 400 "Nonce invalid or expired" branch), at any later time, because
the record keyed `"siws:" + address` was deleted by the first call. -/
theorem claim1_single_use (opts : SiwsOptions)
    (sigOk : String → String → String → Bool) (now now2 : Int)
    (s s' : ServerState) (addr msg sig : String) (u sid : Nat)
    (h : verify opts sigOk now s addr msg sig = (.ok u sid, s')) :
    (verify opts sigOk now2 s' addr msg sig).1
      = VerifyResult.nonceInvalidOrExpired := by
  obtain ⟨⟨n, hn, hne⟩, -, hch, -⟩ :=
    verify_ok_inv opts sigOk now s addr msg sig u sid s' h
  have hnone : storeFind s'.challenges ("siws:" ++ addr) = none := by
    rw [hch]
    exact storeFind_delete_self _ _
  simp [verify, hn, hne, hnone]

/-- C1 witness: a concrete successful run on `s0A`, replayed with the same
inputs, is rejected as "Nonce invalid or expired". -/
theorem claim1_single_use_witness :
    (verify opts0 sigAccept 500
        (verify opts0 sigAccept 0 s0A addrA (buildSiwsMessage fieldsA) "sg").2
        addrA (buildSiwsMessage fieldsA) "sg").1
      = VerifyResult.nonceInvalidOrExpired :=
  claim1_single_use opts0 sigAccept 0 500 s0A
    (verify opts0 sigAccept 0 s0A addrA (buildSiwsMessage fieldsA) "sg").2
    addrA (buildSiwsMessage fieldsA) "sg" 0 0 (by decide)

/-- C3: Expiry — whenever the stored Challenge Record's `expiresAt` is at
or before the current time, a `verify` call that passes nonce extraction
returns `NonceInvalidOrExpired` and leaves the state unchanged, for every
signature and every behaviour of the signature check (the comparison is
`expiresAt ≤ now`, so the record is invalid exactly at its `expiresAt`
instant and after). -/
theorem claim3_expiry (opts : SiwsOptions)
    (sigOk : String → String → String → Bool) (now : Int) (s : ServerState)
    (addr msg sig n : String) (v : ChallengeRecord)
    (hn : extractNonce msg = some n) (hne : n ≠ "")
    (hv : storeFind s.challenges ("siws:" ++ addr) = some v)
    (hexp : v.expiresAt ≤ now) :
    verify opts sigOk now s addr msg sig
      = (VerifyResult.nonceInvalidOrExpired, s) := by
  simp [verify, hn, hne, hv, hexp]

/-- C3 witness: at `now = 1000`, exactly the stored `expiresAt`, the
challenge of `s0A` is rejected even though the signature oracle accepts. -/
theorem claim3_expiry_witness :
    verify opts0 sigAccept 1000 s0A addrA (buildSiwsMessage fieldsA) "sg"
      = (VerifyResult.nonceInvalidOrExpired, s0A) :=
  claim3_expiry opts0 sigAccept 1000 s0A addrA (buildSiwsMessage fieldsA)
    "sg" "n1abc" { value := "n1abc", expiresAt := 1000 }
    (by decide) (by decide) (by decide) (by decide)

/-- C4: Domain binding before signature check — when the message does not
begin with the configured domain followed by the fixed greeting prefix
`" wants you to sign in"`, a `verify` call that passes steps 1–2 returns
`DomainMismatch` for every signature and every behaviour of the signature
check (the Ed25519 verification is never reached), having deleted the
Challenge Record. -/
theorem claim4_domain_mismatch_before_signature (opts : SiwsOptions)
    (sigOk : String → String → String → Bool) (now : Int) (s : ServerState)
    (addr msg sig n : String) (v : ChallengeRecord)
    (hn : extractNonce msg = some n) (hne : n ≠ "")
    (hv : storeFind s.challenges ("siws:" ++ addr) = some v)
    (hlive : ¬ v.expiresAt ≤ now)
    (hdom : strStartsWith msg (opts.domain ++ " wants you to sign in") = false) :
    verify opts sigOk now s addr msg sig
      = (VerifyResult.domainMismatch,
         { s with challenges := storeDelete s.challenges ("siws:" ++ addr) }) := by
  simp [verify, hn, hne, hv, hlive, hdom]

/-- C4 witness: a message built for `evil.example.com` is rejected with
`DomainMismatch` on the `app.example.com` deployment although the
signature oracle accepts everything. -/
theorem claim4_domain_mismatch_before_signature_witness :
    verify opts0 sigAccept 0 s0A addrA (buildSiwsMessage fieldsEvilDomain) "sg"
      = (VerifyResult.domainMismatch,
         { s0A with challenges := storeDelete s0A.challenges ("siws:" ++ addrA) }) :=
  claim4_domain_mismatch_before_signature opts0 sigAccept 0 s0A addrA
    (buildSiwsMessage fieldsEvilDomain) "sg" "n1abc"
    { value := "n1abc", expiresAt := 1000 }
    (by decide) (by decide) (by decide) (by decide) (by decide)

/-- C5: Frame/consumption — failures at steps 1–2 (`nonceMissing`,
`nonceInvalidOrExpired`) leave the state exactly as it was; failures after
the lookup (`domainMismatch`, `invalidSignature`) leave the state changed
only by the deletion of the record keyed `"siws:" + address`; on success
the record is likewise deleted. -/
theorem claim5_frame (opts : SiwsOptions)
    (sigOk : String → String → String → Bool) (now : Int) (s : ServerState)
    (addr msg sig : String) (r : VerifyResult) (s' : ServerState)
    (h : verify opts sigOk now s addr msg sig = (r, s')) :
    ((r = VerifyResult.nonceMissing ∨ r = VerifyResult.nonceInvalidOrExpired) →
      s' = s) ∧
    ((r = VerifyResult.domainMismatch ∨ r = VerifyResult.invalidSignature) →
      s' = { s with challenges := storeDelete s.challenges ("siws:" ++ addr) }) ∧
    (∀ u sid, r = VerifyResult.ok u sid →
      s'.challenges = storeDelete s.challenges ("siws:" ++ addr)) := by
  unfold verify at h
  split at h
  · cases h
    simp
  next n hn =>
    split at h
    · cases h
      simp
    · split at h
      · cases h
        simp
      next v hv =>
        split at h
        · cases h
          simp
        · split at h
          · cases h
            simp
          · split at h
            · cases h
              simp
            · cases h
              simp

/-- C5 witness: a run failing the signature check (rejecting oracle) on
`s0A` still leaves the Challenge Record deleted and nothing else changed. -/
theorem claim5_frame_witness :
    (verify opts0 sigReject 0 s0A addrA (buildSiwsMessage fieldsA) "sg").2
      = { s0A with challenges := storeDelete s0A.challenges ("siws:" ++ addrA) } :=
  (claim5_frame opts0 sigReject 0 s0A addrA (buildSiwsMessage fieldsA) "sg"
      (verify opts0 sigReject 0 s0A addrA (buildSiwsMessage fieldsA) "sg").1
      (verify opts0 sigReject 0 s0A addrA (buildSiwsMessage fieldsA) "sg").2
      rfl).2.1 (Or.inr (by decide))

/-- C6: Nonce cross-check gap — the nonce extracted from the message is
never compared with the stored value: with `"n1abc"` stored for `addrA`, a
message whose nonce line carries `"attacker-chosen"` passes lookup and
consumption and succeeds end-to-end (accepting oracle, matching domain),
consuming the record. -/
theorem claim6_nonce_not_crosschecked :
    extractNonce (buildSiwsMessage fieldsOtherNonce) = some "attacker-chosen" ∧
    storeFind s0A.challenges ("siws:" ++ addrA)
      = some { value := "n1abc", expiresAt := 1000 } ∧
    ("attacker-chosen" : String) ≠ "n1abc" ∧
    (verify opts0 sigAccept 0 s0A addrA (buildSiwsMessage fieldsOtherNonce) "sg").1
      = VerifyResult.ok 0 0 ∧
    (verify opts0 sigAccept 0 s0A addrA (buildSiwsMessage fieldsOtherNonce) "sg").2.challenges
      = [] := by
  decide

/-- A successful `verify` on a state whose identity store already holds an
account under `buildAccountId addr` returns that account's user id. -/
theorem verify_ok_userId_of_existing (opts : SiwsOptions)
    (sigOk : String → String → String → Bool) (now : Int) (s : ServerState)
    (addr msg sig : String) (u sid : Nat) (s' : ServerState) (a : Account)
    (h : verify opts sigOk now s addr msg sig = (.ok u sid, s'))
    (ha : findAccount s.identity (buildAccountId addr) = some a) :
    u = a.userId := by
  unfold verify at h
  split at h
  · exact absurd (congrArg (fun p => p.1) h) (by simp)
  next n hn =>
    split at h
    · exact absurd (congrArg (fun p => p.1) h) (by simp)
    · split at h
      · exact absurd (congrArg (fun p => p.1) h) (by simp)
      next v hv =>
        split at h
        · exact absurd (congrArg (fun p => p.1) h) (by simp)
        · split at h
          · exact absurd (congrArg (fun p => p.1) h) (by simp)
          · split at h
            · exact absurd (congrArg (fun p => p.1) h) (by simp)
            · cases h
              simp [upsertUserAndSession, ha]

/-- C9: Idempotent user provisioning — two successful `verify` calls for
the same address (the second using a fresh challenge issued by `start` on
the state left by the first) resolve to the same user id: the first run
leaves an account under `buildAccountId address` and the second resolves
it instead of creating a new user. -/
theorem claim9_idempotent_provisioning (opts : SiwsOptions)
    (sigOk1 sigOk2 : String → String → String → Bool)
    (now1 now2 t2 : Int) (baseURL n2 : String)
    (s s1 s2 : ServerState) (addr msg1 msg2 sig1 sig2 : String)
    (u1 sid1 u2 sid2 : Nat)
    (h1 : verify opts sigOk1 now1 s addr msg1 sig1 = (.ok u1 sid1, s1))
    (h2 : verify opts sigOk2 now2 (start opts baseURL n2 t2 s1 addr).2
            addr msg2 sig2 = (.ok u2 sid2, s2)) :
    u1 = u2 := by
  obtain ⟨-, -, -, a1, ha1, hu1⟩ :=
    verify_ok_inv opts sigOk1 now1 s addr msg1 sig1 u1 sid1 s1 h1
  have ha1' : findAccount ((start opts baseURL n2 t2 s1 addr).2).identity
      (buildAccountId addr) = some a1 := ha1
  have h2u := verify_ok_userId_of_existing opts sigOk2 now2
    (start opts baseURL n2 t2 s1 addr).2 addr msg2 sig2 u2 sid2 s2 a1 h2 ha1'
  exact (hu1.symm.trans h2u.symm).symm.symm

/-- C9 witness: a concrete double round on `s0A` — first verification
creates user 0, second (fresh nonce `"n2xyz"`) resolves the same user 0. -/
theorem claim9_idempotent_provisioning_witness :
    verify opts0 sigAccept 0 s0A addrA (buildSiwsMessage fieldsA) "sg"
        = (VerifyResult.ok 0 0, state1) ∧
    verify opts0 sigAccept 0
        (start opts0 "http://localhost:3000/api/auth" "n2xyz" 0 state1 addrA).2
        addrA (buildSiwsMessage fieldsA2) "sg2"
        = (VerifyResult.ok 0 1, state2) ∧
    (0 : Nat) = (0 : Nat) :=
  ⟨by decide, by decide,
   claim9_idempotent_provisioning opts0 sigAccept sigAccept 0 0 0
     "http://localhost:3000/api/auth" "n2xyz" s0A state1 state2 addrA
     (buildSiwsMessage fieldsA) (buildSiwsMessage fieldsA2) "sg" "sg2"
     0 0 0 1 (by decide) (by decide)⟩

theorem isPrefixChars_append_both (a b c : List Char) :
    isPrefixChars (a ++ b) (a ++ c) = isPrefixChars b c := by
  induction a with
  | nil => rfl
  | cons x xs ih => simp [isPrefixChars, ih]

/-- Every built message starts with its own domain followed by the greeting
prefix checked in step 4 of `verify`. -/
theorem buildSiwsMessage_startsWith_greeting (i : SiwsFields) :
    strStartsWith (buildSiwsMessage i)
      (i.domain ++ " wants you to sign in") = true := by
  unfold buildSiwsMessage
  rw [List.cons_append, joinNl_cons _ _ (by simp)]
  unfold strStartsWith
  rw [String.data_append, String.data_append, String.data_append,
    String.data_append, List.append_assoc, List.append_assoc]
  rw [show (" wants you to sign in with your Solana account:" : String).data
      = (" wants you to sign in" : String).data
        ++ (" with your Solana account:" : String).data from rfl]
  rw [isPrefixChars_append_both, List.append_assoc, isPrefixChars_append_left]

/-- C10 (implicit): the address line inside the message is never compared
with the `address` parameter — whenever the challenge of the submitted
address `A` is live and the signature oracle accepts the submitted
signature over the message, `verify` succeeds although the message's
address line names a different address `f.address ≠ A`, consuming `A`'s
challenge and resolving the account derived from `A`. -/
theorem claim10_address_line_not_checked (opts : SiwsOptions)
    (sigOk : String → String → String → Bool) (now : Int) (s : ServerState)
    (A sig n : String) (v : ChallengeRecord) (f : SiwsFields)
    (haddr : f.address ≠ A)
    (hdom : f.domain = opts.domain)
    (hn : extractNonce (buildSiwsMessage f) = some n) (hne : n ≠ "")
    (hv : storeFind s.challenges ("siws:" ++ A) = some v)
    (hlive : ¬ v.expiresAt ≤ now)
    (hsig : sigOk sig (buildSiwsMessage f) A = true) :
    verify opts sigOk now s A (buildSiwsMessage f) sig
      = (VerifyResult.ok (upsertUserAndSession s.identity A).1.1
           (upsertUserAndSession s.identity A).1.2,
         { challenges := storeDelete s.challenges ("siws:" ++ A),
           identity := (upsertUserAndSession s.identity A).2 }) := by
  have hst : strStartsWith (buildSiwsMessage f)
      (opts.domain ++ " wants you to sign in") = true := by
    rw [← hdom]
    exact buildSiwsMessage_startsWith_greeting f
  simp [verify, hn, hne, hv, hlive, hst, hsig]

/-- C10 witness: with `addrA`'s challenge live in `s0A` and an accepting
oracle, a message naming `addrB` in its address line verifies as `addrA`. -/
theorem claim10_address_line_not_checked_witness :
    verify opts0 sigAccept 0 s0A addrA (buildSiwsMessage fieldsWrongAddress) "sg"
      = (VerifyResult.ok (upsertUserAndSession s0A.identity addrA).1.1
           (upsertUserAndSession s0A.identity addrA).1.2,
         { challenges := storeDelete s0A.challenges ("siws:" ++ addrA),
           identity := (upsertUserAndSession s0A.identity addrA).2 }) :=
  claim10_address_line_not_checked opts0 sigAccept 0 s0A addrA "sg" "n1abc"
    { value := "n1abc", expiresAt := 1000 } fieldsWrongAddress
    (by decide) (by decide) (by decide) (by decide) (by decide) (by decide)
    (by decide)

/-- C7: Upsert on repeated start — after two `start` calls for the same
address the store holds exactly one record under `"siws:" + address`, and
it carries the second call's nonce and expiry (the first call's nonce is
superseded). -/
theorem claim7_start_upsert (opts : SiwsOptions) (baseURL n1 n2 : String)
    (t1 t2 : Int) (s : ServerState) (addr : String) :
    storeFind
        (start opts baseURL n2 t2 (start opts baseURL n1 t1 s addr).2 addr).2.challenges
        ("siws:" ++ addr)
      = some { value := n2,
               expiresAt := t2 + (opts.nonceTtlSeconds.getD 300 : Nat) * 1000 } ∧
    keyCount
        (start opts baseURL n2 t2 (start opts baseURL n1 t1 s addr).2 addr).2.challenges
        ("siws:" ++ addr) = 1 := by
  unfold start
  exact ⟨storeFind_upsert_self _ _ _, keyCount_upsert_self _ _ _⟩

/- ------------------- message format lemmas (C8, C2) ------------------- -/

theorem dash_join_eq (r : String) (rs : List String) :
    "- " ++ joinSep "\n- " (r :: rs)
      = joinNl ((r :: rs).map (fun x => "- " ++ x)) := by
  induction rs generalizing r with
  | nil => rfl
  | cons r2 rs2 ih =>
    rw [show joinSep "\n- " (r :: r2 :: rs2)
        = r ++ "\n- " ++ joinSep "\n- " (r2 :: rs2) from rfl]
    rw [List.map_cons, joinNl_cons _ _ (by simp), ← ih r2]
    rw [show ("\n- " : String) = "\n" ++ "- " by decide]
    simp only [String.append_assoc]

theorem resources_entry_eq (r : String) (rs : List String) :
    "Resources:\n- " ++ joinSep "\n- " (r :: rs)
      = joinNl ("Resources:" :: (r :: rs).map (fun x => "- " ++ x)) := by
  rw [joinNl_cons _ _ (by simp), ← dash_join_eq]
  rw [show ("Resources:\n- " : String) = "Resources:" ++ "\n" ++ "- " by decide]
  simp only [String.append_assoc]

/-- Replacing a final single entry by the line list it joins preserves the
overall newline-join. -/
theorem joinNl_append_entry (L : List String) (hL : L ≠ []) (e : String)
    (ys : List String) (hys : ys ≠ []) (he : e = joinNl ys) :
    joinNl (L ++ [e]) = joinNl (L ++ ys) := by
  rw [joinNl_append L [e] hL (by simp), joinNl_append L ys hL hys, he]
  rfl

theorem uri_line_not_nonce (t : String) :
    strStartsWith ("URI: " ++ t) "Nonce: " = false := by
  unfold strStartsWith
  rw [String.data_append]
  rw [show ("Nonce: " : String).data = 'N' :: ("once: " : String).data from rfl,
      show ("URI: " : String).data ++ t.data
        = 'U' :: (("RI: " : String).data ++ t.data) from rfl]
  exact isPrefixChars_cons_ne _ _ _ _ (by decide)

theorem strDrop_append_self (p t : String) :
    strDrop (p ++ t) p.length = t := by
  unfold strDrop
  rw [String.data_append, show p.length = p.data.length from rfl,
    List.drop_left]

/-- C8: Message format and determinism — `buildSiwsMessage` is a pure
function (identical fields give the identical string), and its output is
exactly the newline-join of: the greeting line, the address line, a blank
line, the statement line (defaulting when absent), a blank line, `URI:`,
`Version: 1`, `Nonce:`, `Issued At:`, the `Expiration Time:` line when
`expirationTime` is pushed (present and nonempty), and the `Resources:`
block (one dash-prefixed line per resource) when the resources list is
present and nonempty. -/
theorem claim8_message_format (i : SiwsFields) :
    buildSiwsMessage i = buildSiwsMessage i ∧
    buildSiwsMessage i = joinNl (messageLines i) := by
  refine ⟨rfl, ?_⟩
  unfold buildSiwsMessage messageLines optionalEntries
  cases hR : i.resources with
  | none => simp [List.append_assoc]
  | some rs =>
    by_cases hc : rs.length = 0
    · simp [hc, List.append_assoc]
    · cases rs with
      | nil => simp at hc
      | cons r rs2 =>
        dsimp only
        rw [if_neg hc, if_neg hc, ← List.append_assoc]
        exact joinNl_append_entry _ (by simp) _ _ (by simp)
          (resources_entry_eq r rs2)

/- --------------------------- round-trip (C2) --------------------------- -/

/-- C2 (amended): round-trip of the codec — for every field set whose
pre-nonce fields are single lines not themselves starting with
`"Nonce: "` and whose nonce is a single-line, trim-stable string
(`GoodFields`), extracting the nonce from the built message returns
exactly the field set's nonce. -/
theorem claim2_roundtrip (i : SiwsFields) (h : GoodFields i) :
    extractNonce (buildSiwsMessage i) = some i.nonce := by
  have hsplit : splitNl (buildSiwsMessage i)
      = (i.domain ++ " wants you to sign in with your Solana account:") ::
        i.address :: "" :: statementLine i :: "" ::
        ("URI: " ++ i.uri) :: "Version: 1" ::
        ("Nonce: " ++ i.nonce) ::
        splitNl (joinNl (("Issued At: " ++ i.issuedAt) :: optionalEntries i)) := by
    unfold buildSiwsMessage
    simp only [List.cons_append, List.nil_append]
    rw [splitNl_cons _ _ (noNlStr_append _ _ h.domainNoNl (by decide)) (by simp),
      splitNl_cons _ _ h.addressNoNl (by simp),
      splitNl_cons _ _ (by decide) (by simp),
      splitNl_cons _ _ h.statementNoNl (by simp),
      splitNl_cons _ _ (by decide) (by simp),
      splitNl_cons _ _ (noNlStr_append _ _ (by decide) h.uriNoNl) (by simp),
      splitNl_cons _ _ (by decide) (by simp),
      splitNl_cons _ _ (noNlStr_append _ _ (by decide) h.nonceNoNl) (by simp)]
  have hskip : ∀ l ∈ [
      i.domain ++ " wants you to sign in with your Solana account:",
      i.address, "", statementLine i, "", "URI: " ++ i.uri, "Version: 1"],
      (fun l => strStartsWith l "Nonce: ") l = false := by
    intro l hl
    simp only [List.mem_cons, List.not_mem_nil, or_false] at hl
    rcases hl with rfl | rfl | rfl | rfl | rfl | rfl | rfl
    · exact h.greetingNotNonce
    · exact h.addressNotNonce
    · decide
    · exact h.statementNotNonce
    · decide
    · exact uri_line_not_nonce i.uri
    · decide
  unfold extractNonce
  rw [hsplit]
  rw [show ((i.domain ++ " wants you to sign in with your Solana account:") ::
        i.address :: "" :: statementLine i :: "" ::
        ("URI: " ++ i.uri) :: "Version: 1" ::
        ("Nonce: " ++ i.nonce) ::
        splitNl (joinNl (("Issued At: " ++ i.issuedAt) :: optionalEntries i)))
      = [i.domain ++ " wants you to sign in with your Solana account:",
         i.address, "", statementLine i, "", "URI: " ++ i.uri, "Version: 1"] ++
        (("Nonce: " ++ i.nonce) ::
          splitNl (joinNl (("Issued At: " ++ i.issuedAt) :: optionalEntries i)))
      from rfl]
  rw [find?_append_of_forall_false _ _ _ hskip,
    List.find?_cons_of_pos (p := fun l => strStartsWith l "Nonce: ") _
      (strStartsWith_append_right "Nonce: " i.nonce)]
  dsimp only
  rw [strDrop_append_self "Nonce: " i.nonce, h.nonceTrimmed]

/-- C2 witness: the round-trip at the concrete field set `fieldsA`. -/
theorem claim2_roundtrip_witness :
    extractNonce (buildSiwsMessage fieldsA) = some fieldsA.nonce :=
  claim2_roundtrip fieldsA
    ⟨by decide, by decide, by decide, by decide, by decide, by decide,
     by decide, by decide, by decide⟩

/-- C2 counterexample: the claim quantified over every field set the codec
accepts fails — a statement injecting a `"Nonce: "` line before the
genuine nonce line makes extraction return the injected value instead of
the field set's nonce. -/
theorem claim2_roundtrip_cex :
    extractNonce (buildSiwsMessage fieldsInject) = some "evil" ∧
    fieldsInject.nonce = "n1abc" ∧
    extractNonce (buildSiwsMessage fieldsInject) ≠ some fieldsInject.nonce := by
  decide

end Siws
